import Mathlib

/-!
Verification of the fetch-normalize-cache aggregation engine of the
Releaseboard repository (`src/lib/fetch-utils.ts`, `src/lib/github.ts`, the
`getUnifiedChangelog` orchestrator, and `src/lib/types.ts`).

The TypeScript code is shallowly embedded: pure functions become Lean
functions, the stateful orchestrator becomes explicit state passing with an
effect log, and the HTTP layer (`fetch`, `Date.now`, `Math.random`,
`encodeURIComponent`, JSON deserialization) is modelled by oracles passed in
as explicit arguments, since those are external collaborators of the code
under verification.  Strings are treated as lists of Unicode scalar values;
the inputs exercised by the claims are ASCII, where this coincides with
JavaScript's UTF-16 code-unit view.
-/

/-! ## JavaScript string primitives -/

/-- Backtick character (used by the markdown stripper; U+0060). -/
def jsBacktick : Char := Char.ofNat 96

/-- Characters matched by JavaScript's `\s` class (the ASCII part plus
NBSP and BOM, which covers every input this development evaluates). -/
def isJsWhitespace (c : Char) : Bool :=
  c = ' ' || c = '\t' || c = '\n' || c = '\r' ||
  c = Char.ofNat 11 || c = Char.ofNat 12 ||
  c = Char.ofNat 0xA0 || c = Char.ofNat 0xFEFF

/-- Test whether `pat` is an initial segment of `l`. -/
def listStartsWith : List Char → List Char → Bool
  | [], _ => true
  | _ :: _, [] => false
  | p :: ps, c :: cs => p = c && listStartsWith ps cs

/-- Test whether `needle` occurs as a contiguous substring of `hay`;
models JavaScript `String.prototype.includes`. -/
def listHasSubstring (needle : List Char) : List Char → Bool
  | [] => listStartsWith needle []
  | c :: cs => listStartsWith needle (c :: cs) || listHasSubstring needle cs

/-- Models JavaScript `haystack.includes(needle)`. -/
def jsIncludes (hay needle : String) : Bool :=
  listHasSubstring needle.toList hay.toList

/-- Test whether `suffix` is a final segment of `l`. -/
def listEndsWith (suffix l : List Char) : Bool :=
  listStartsWith suffix.reverse l.reverse

/-- Models JavaScript `s.endsWith(suffix)`. -/
def jsEndsWith (s suffix : String) : Bool :=
  listEndsWith suffix.toList s.toList

/-- Models JavaScript `String.prototype.trim` (both ends, `\s` class). -/
def jsTrimList (l : List Char) : List Char :=
  ((l.dropWhile isJsWhitespace).reverse.dropWhile isJsWhitespace).reverse

/-- Models JavaScript `s.trim()`. -/
def jsTrim (s : String) : String :=
  String.mk (jsTrimList s.toList)

/-- Models JavaScript `s.slice(0, n)` for the ASCII strings this
development evaluates (JS counts UTF-16 units; we count scalar values). -/
def jsSlice (n : Nat) (s : String) : String :=
  String.mk (s.toList.take n)

/-- Truthiness of a JavaScript string: `""` is falsy. -/
def jsTruthy (s : String) : Bool := s ≠ ""

/-- Truthiness of a nullable JavaScript string: `null`/`undefined` and
`""` are falsy. -/
def jsTruthyOpt : Option String → Bool
  | none => false
  | some s => jsTruthy s

/-! ## Record normalizer: `markdownToPlainText` (github.ts lines 99-108)

Each `String.prototype.replace` with a global regex is embedded as one pass
over the character list.  The scanners for the four structural patterns use
a fuel argument bounded by the list length: every step consumes at least one
character, so fuel `l.length` makes the fueled scanner agree with the
unbounded leftmost-match scan that the JS regex engine performs. -/

/-- The three-backtick fence token of ````` ```[\s\S]*?``` `````. -/
def fenceToken : List Char := [jsBacktick, jsBacktick, jsBacktick]

/-- Find the leftmost closing fence in `l`; return the characters after it.
This is the lazy `[\s\S]*?` search of the fenced-code regex. -/
def findFenceClose : List Char → Option (List Char)
  | [] => none
  | c :: cs =>
    if listStartsWith fenceToken (c :: cs) then some ((c :: cs).drop 3)
    else findFenceClose cs

/-- Replace ````` ```[\s\S]*?``` ````` (fenced code blocks) by a single
space, leftmost-first, as `.replace(/```[\s\S]*?```/g, " ")` does. -/
def stripFencedGo : Nat → List Char → List Char
  | 0, l => l
  | _ + 1, [] => []
  | fuel + 1, c :: cs =>
    if listStartsWith fenceToken (c :: cs) then
      match findFenceClose (cs.drop 2) with
      | some rest => ' ' :: stripFencedGo fuel rest
      | none => c :: stripFencedGo fuel cs
    else c :: stripFencedGo fuel cs

def stripFenced (l : List Char) : List Char := stripFencedGo l.length l

/-- Replace  `` `([^`]+)` `` (inline code) by its contents, as
`.replace(/`([^`]+)`/g, "$1")` does. -/
def stripInlineCodeGo : Nat → List Char → List Char
  | 0, l => l
  | _ + 1, [] => []
  | fuel + 1, c :: cs =>
    if c = jsBacktick then
      let content := cs.takeWhile (· ≠ jsBacktick)
      match cs.dropWhile (· ≠ jsBacktick) with
      | _ :: rs =>
        if content.isEmpty then c :: stripInlineCodeGo fuel cs
        else content ++ stripInlineCodeGo fuel rs
      | [] => c :: stripInlineCodeGo fuel cs
    else c :: stripInlineCodeGo fuel cs

def stripInlineCode (l : List Char) : List Char := stripInlineCodeGo l.length l

/-- Try to match the image pattern of `/!\[[^\]]*\]\([^)]*\)/` at the head
of the list, returning the remainder after the match. -/
def matchImage : List Char → Option (List Char)
  | '!' :: '[' :: cs =>
    match cs.dropWhile (· ≠ ']') with
    | ']' :: '(' :: ds =>
      match ds.dropWhile (· ≠ ')') with
      | ')' :: es => some es
      | _ => none
    | _ => none
  | _ => none

/-- Delete markdown images, as `.replace(/!\[[^\]]*\]\([^)]*\)/g, "")`. -/
def stripImagesGo : Nat → List Char → List Char
  | 0, l => l
  | _ + 1, [] => []
  | fuel + 1, c :: cs =>
    match matchImage (c :: cs) with
    | some rest => stripImagesGo fuel rest
    | none => c :: stripImagesGo fuel cs

def stripImages (l : List Char) : List Char := stripImagesGo l.length l

/-- Try to match the link pattern of `/\[([^\]]+)\]\([^)]*\)/` at the head
of the list, returning the link text and the remainder. -/
def matchLink : List Char → Option (List Char × List Char)
  | '[' :: cs =>
    let txt := cs.takeWhile (· ≠ ']')
    if txt.isEmpty then none
    else
      match cs.dropWhile (· ≠ ']') with
      | ']' :: '(' :: ds =>
        match ds.dropWhile (· ≠ ')') with
        | ')' :: es => some (txt, es)
        | _ => none
      | _ => none
  | _ => none

/-- Replace markdown links by their text, as
`.replace(/\[([^\]]+)\]\([^)]*\)/g, "$1")`. -/
def stripLinksGo : Nat → List Char → List Char
  | 0, l => l
  | _ + 1, [] => []
  | fuel + 1, c :: cs =>
    match matchLink (c :: cs) with
    | some (txt, rest) => txt ++ stripLinksGo fuel rest
    | none => c :: stripLinksGo fuel cs

def stripLinks (l : List Char) : List Char := stripLinksGo l.length l

/-- Characters of the class `[*_>#~-]`. -/
def isMarkdownPunct (c : Char) : Bool :=
  c = '*' || c = '_' || c = '>' || c = '#' || c = '~' || c = '-'

/-- Replace every `[*_>#~-]` character by a space. -/
def replacePunct (l : List Char) : List Char :=
  l.map fun c => if isMarkdownPunct c then ' ' else c

/-- Collapse every maximal run of whitespace to one space,
as `.replace(/\s+/g, " ")`.  The Boolean records whether the previous
character belonged to a whitespace run. -/
def collapseWsGo : Bool → List Char → List Char
  | _, [] => []
  | prevWs, c :: cs =>
    if isJsWhitespace c then
      if prevWs then collapseWsGo true cs else ' ' :: collapseWsGo true cs
    else c :: collapseWsGo false cs

def collapseWs (l : List Char) : List Char := collapseWsGo false l

/-- Embedding of `markdownToPlainText` (github.ts lines 99-108): strip
fenced code, inline code, images, links, markdown punctuation, collapse
whitespace, then trim. -/
def markdownToPlainText (value : String) : String :=
  String.mk (jsTrimList (collapseWs (replacePunct
    (stripLinks (stripImages (stripInlineCode (stripFenced value.toList)))))))

example : markdownToPlainText "Fix bug\n\nDetails here" = "Fix bug Details here" := by decide
example : markdownToPlainText "see [docs](http://x) and *notes*" = "see docs and notes" := by decide

/-! ## Data model (src/lib/types.ts) -/

inductive GitProvider where
  | github
  | gitlab
  | bitbucket
  | gitea
deriving DecidableEq, Repr

/-- The provider enum's string value. -/
def providerName : GitProvider → String
  | .github => "github"
  | .gitlab => "gitlab"
  | .bitbucket => "bitbucket"
  | .gitea => "gitea"

inductive ReleaseKind where
  | release
  | commit
deriving DecidableEq, Repr

/-- Embedding of `RepoSourceWithToken` (types.ts). -/
structure RepoSourceWithToken where
  id : String
  pageId : String
  displayName : String
  provider : GitProvider
  owner : String
  repo : String
  baseUrl : Option String
  isPrivate : Bool
  hasToken : Bool
  enabled : Bool
  releasesLimit : Nat
  createdAt : String
  updatedAt : String
  token : Option String
deriving DecidableEq, Repr

/-- Embedding of `AggregatedRelease` (types.ts). -/
structure AggregatedRelease where
  id : String
  sourceId : String
  sourceName : String
  provider : GitProvider
  repository : String
  kind : ReleaseKind
  tagName : String
  name : String
  body : String
  bodyExcerpt : String
  htmlUrl : String
  prerelease : Bool
  draft : Bool
  publishedAt : String
deriving DecidableEq, Repr

/-- Embedding of `SourceFetchError` (types.ts). -/
structure SourceFetchError where
  sourceId : String
  sourceName : String
  repository : String
  message : String
deriving DecidableEq, Repr

/-- Embedding of `UnifiedChangelog` (types.ts). -/
structure UnifiedChangelog where
  fetchedAt : String
  releases : List AggregatedRelease
  errors : List SourceFetchError
deriving DecidableEq, Repr

/-! ## URL-base inference and shared helpers (github.ts lines 96-251) -/

def RELEASES_PREVIEW_LIMIT : Nat := 480
def COMMITS_PREVIEW_LIMIT : Nat := 360

/-- Result of `new Date(0).toISOString()`. -/
def epochIso : String := "1970-01-01T00:00:00.000Z"

/-- Embedding of `trimTrailingSlashes` (`value.replace(/\/+$/, "")`). -/
def trimTrailingSlashes (value : String) : String :=
  String.mk ((value.toList.reverse.dropWhile (· = '/')).reverse)

/-- Reversed characters of the literal part `/rest/api/` of the Bitbucket
Server regex, in lowercase. -/
def restApiSuffixRev : List Char := "/rest/api/".toList.reverse

/-- Match `pat` (given lowercase) against the front of `l`, ignoring case;
return the remainder on success. -/
def dropCaseInsensitive : List Char → List Char → Option (List Char)
  | [], l => some l
  | _ :: _, [] => none
  | p :: ps, c :: cs => if p = c.toLower then dropCaseInsensitive ps cs else none

/-- Match the regex `\/rest\/api\/\d+\.\d+$` (flag `i`) against `rl`, the
REVERSED character list of the subject; return the reversed remainder
preceding the match. -/
def matchServerSuffixRev (rl : List Char) : Option (List Char) :=
  match rl with
  | c :: cs =>
    if c.isDigit then
      match cs.dropWhile Char.isDigit with
      | '.' :: c2 :: cs2 =>
        if c2.isDigit then dropCaseInsensitive restApiSuffixRev (cs2.dropWhile Char.isDigit)
        else none
      | _ => none
    else none
  | [] => none

/-- Embedding of `isBitbucketServerApiBase` (github.ts lines 114-116):
`/\/rest\/api\/\d+\.\d+$/i.test(apiBase)`. -/
def isBitbucketServerApiBase (apiBase : String) : Bool :=
  (matchServerSuffixRev apiBase.toList.reverse).isSome

/-- Models `value.replace(/\/rest\/api\/\d+\.\d+$/i, "")`. -/
def stripServerApiSuffix (value : String) : String :=
  match matchServerSuffixRev value.toList.reverse with
  | some rest => String.mk rest.reverse
  | none => value

/-- Models a case-sensitive anchored-suffix replace such as
`base.replace(/\/api\/v3$/, "")`. -/
def stripSuffixIf (suffix s : String) : String :=
  if jsEndsWith s suffix then String.mk (s.toList.take (s.toList.length - suffix.toList.length))
  else s

/-- Models `s.toLowerCase()` for ASCII. -/
def jsLower (s : String) : String := String.mk (s.toList.map Char.toLower)

/-- Models `/^https?:\/\/github\.com$/i.test(s)`. -/
def matchesGithubComOrigin (s : String) : Bool :=
  jsLower s = "http://github.com" || jsLower s = "https://github.com"

/-- Models `source.baseUrl ? trimTrailingSlashes(source.baseUrl) : null`
(JavaScript truthiness: an empty string is falsy). -/
def configuredBaseOf (source : RepoSourceWithToken) : Option String :=
  match source.baseUrl with
  | some b => if jsTruthy b then some (trimTrailingSlashes b) else none
  | none => none

/-- Embedding of `inferApiBaseUrl` (github.ts lines 118-168). -/
def inferApiBaseUrl (source : RepoSourceWithToken) : String :=
  let configuredBase := configuredBaseOf source
  match source.provider with
  | .github =>
    match configuredBase with
    | none => "https://api.github.com"
    | some base =>
      if matchesGithubComOrigin base then "https://api.github.com"
      else if jsIncludes base "api.github.com" then "https://api.github.com"
      else if jsEndsWith base "/api/v3" then base
      else base ++ "/api/v3"
  | .gitlab =>
    let base := configuredBase.getD "https://gitlab.com"
    if jsEndsWith base "/api/v4" then base else base ++ "/api/v4"
  | .gitea =>
    let base := configuredBase.getD "https://gitea.com"
    if jsEndsWith base "/api/v1" then base else base ++ "/api/v1"
  | .bitbucket =>
    match configuredBase with
    | none => "https://api.bitbucket.org/2.0"
    | some base =>
      if jsIncludes base "api.bitbucket.org" then
        if jsEndsWith base "/2.0" then base else base ++ "/2.0"
      else if isBitbucketServerApiBase base then base
      else if jsIncludes base "bitbucket.org" then "https://api.bitbucket.org/2.0"
      else base ++ "/rest/api/1.0"

/-- Embedding of `inferWebBaseUrl` (github.ts lines 170-208). -/
def inferWebBaseUrl (source : RepoSourceWithToken) : String :=
  let configuredBase := configuredBaseOf source
  match source.provider with
  | .github =>
    match configuredBase with
    | none => "https://github.com"
    | some base =>
      if jsIncludes base "api.github.com" then "https://github.com"
      else stripSuffixIf "/api/v3" base
  | .gitlab => stripSuffixIf "/api/v4" (configuredBase.getD "https://gitlab.com")
  | .gitea => stripSuffixIf "/api/v1" (configuredBase.getD "https://gitea.com")
  | .bitbucket =>
    match configuredBase with
    | none => "https://bitbucket.org"
    | some base =>
      if jsIncludes base "api.bitbucket.org" then "https://bitbucket.org"
      else if isBitbucketServerApiBase base then stripServerApiSuffix base
      else stripSuffixIf "/2.0" base

/-- Embedding of `buildReleaseId` (the caller applies `String(...)` to a
numeric native id first). -/
def buildReleaseId (sourceId releaseId : String) : String :=
  sourceId ++ ":" ++ releaseId

/-- Embedding of `buildCommitId`. -/
def buildCommitId (sourceId sha : String) : String :=
  sourceId ++ ":commit:" ++ sha

/-- Models `provider[0]?.toUpperCase() + provider.slice(1)`. -/
def capitalizeFirst (s : String) : String :=
  match s.toList with
  | [] => s
  | c :: cs => String.mk (c.toUpper :: cs)

/-- Embedding of `formatApiError` (github.ts lines 218-222). -/
def formatApiError (provider : GitProvider) (status : Nat) (detail : String) : String :=
  let label := capitalizeFirst (providerName provider)
  let statusMessage := jsTrim (jsSlice 140 detail)
  if jsTruthy statusMessage then s!"{label} API {status}: {statusMessage}"
  else s!"{label} API returned {status}"

example : isBitbucketServerApiBase "https://git.example.com/rest/api/1.0" = true := by decide
example : isBitbucketServerApiBase "https://api.bitbucket.org/2.0" = false := by decide
example : formatApiError .github 403 "  rate limit exceeded" = "Github API 403: rate limit exceeded" := by decide

/-! ## Retry client: `fetchWithRetry` (fetch-utils.ts)

The HTTP transport is an oracle `script : Nat → AttemptOutcome` giving, for
each value of the loop's `attempt` counter, either a thrown network error or
the `Response` that `fetch` resolved with.  `nows k` is the `Date.now()`
reading taken while handling attempt `k`, and `jitters k` models the
`Math.random() * 500` term of the backoff computed after attempt `k`.
Sleeps are logged instead of performed; `x-ratelimit-reset` is modelled as
the already-parsed integer value of the header (`parseInt(resetAt, 10)`). -/

/-- The observable parts of a `Response` that `fetchWithRetry` inspects. -/
structure RetryResponse where
  status : Nat
  rateLimitRemaining : Option String
  rateLimitReset : Option Int
deriving DecidableEq, Repr

/-- Outcome of one `fetch` call. -/
inductive AttemptOutcome where
  | netError (msg : String)
  | success (r : RetryResponse)
deriving DecidableEq, Repr

/-- Models `response.ok`: status in the 2xx range. -/
def httpOk (status : Nat) : Bool := 200 ≤ status && status < 300

/-- How the `fetchWithRetry` call ended. -/
inductive RetryOutcome where
  | returned (r : RetryResponse)
  | threw (msg : String)
  | exhausted
deriving DecidableEq, Repr

/-- One run of `fetchWithRetry`: its final outcome, the sleep durations it
would have awaited (in order), and the number of `fetch` calls it made. -/
structure RetryRun where
  outcome : RetryOutcome
  sleeps : List Int
  attempts : Nat
deriving DecidableEq, Repr

def baseWaitMs : Int := 1500

/-- One iteration's bookkeeping: record a sleep and an attempt on top of
the run produced by the continuation. -/
def retryStep (sleep : Int) (rest : RetryRun) : RetryRun :=
  ⟨rest.outcome, sleep :: rest.sleeps, rest.attempts + 1⟩

/-- The wait computation of lines 36-38:
`resetTimeMs > now ? resetTimeMs - now : baseWaitMs` with
`resetTimeMs = parseInt(resetAt, 10) * 1000`. -/
def rateLimitWaitTime (resetSec now : Int) : Int :=
  if resetSec * 1000 > now then resetSec * 1000 - now else baseWaitMs

/-- Embedding of the `while (attempt <= maxRetries)` loop of
`fetchWithRetry`.  `fuel` is `maxRetries + 1 - attempt`; the fuel-0 case is
the fall-through `throw new Error("Maximum retries exhausted")` after the
loop.  Every `attempt++` of the source is an `attempt + 1` recursive call.
The source's single fall-through to the generic backoff of lines 51-67 is
reached from three spots (rate-limited without reset header, 403 with
remaining quota, 5xx/unclassified) and appears once per spot here. -/
def fetchLoop (script : Nat → AttemptOutcome) (nows : Nat → Int) (jitters : Nat → Int)
    (maxRetries : Nat) : Nat → Nat → RetryRun
  | _, 0 => ⟨.exhausted, [], 0⟩
  | attempt, fuel + 1 =>
    match script attempt with
    | .netError msg =>
      if attempt = maxRetries then ⟨.threw msg, [], 1⟩
      else retryStep (baseWaitMs * 2 ^ attempt)
        (fetchLoop script nows jitters maxRetries (attempt + 1) fuel)
    | .success r =>
      if httpOk r.status then ⟨.returned r, [], 1⟩
      else if r.status = 403 ∨ r.status = 429 then
        if r.rateLimitRemaining = some "0" ∨ r.status = 429 then
          if attempt = maxRetries then ⟨.returned r, [], 1⟩
          else
            match r.rateLimitReset with
            | some resetSec =>
              if rateLimitWaitTime resetSec (nows attempt) < 10000 then
                retryStep (rateLimitWaitTime resetSec (nows attempt) + 500)
                  (fetchLoop script nows jitters maxRetries (attempt + 1) fuel)
              else ⟨.returned r, [], 1⟩
            | none =>
              if attempt = maxRetries then ⟨.returned r, [], 1⟩
              else retryStep (baseWaitMs * 2 ^ attempt + jitters attempt)
                (fetchLoop script nows jitters maxRetries (attempt + 1) fuel)
        else
          if attempt = maxRetries then ⟨.returned r, [], 1⟩
          else retryStep (baseWaitMs * 2 ^ attempt + jitters attempt)
            (fetchLoop script nows jitters maxRetries (attempt + 1) fuel)
      else
        if 400 ≤ r.status ∧ r.status < 500 ∧ r.status ≠ 403 ∧ r.status ≠ 429 then
          ⟨.returned r, [], 1⟩
        else
          if attempt = maxRetries then ⟨.returned r, [], 1⟩
          else retryStep (baseWaitMs * 2 ^ attempt + jitters attempt)
            (fetchLoop script nows jitters maxRetries (attempt + 1) fuel)

/-- Embedding of `fetchWithRetry(url, init, maxRetries)`; the source's
default for `maxRetries` is 3. -/
def fetchWithRetry (script : Nat → AttemptOutcome) (nows : Nat → Int) (jitters : Nat → Int)
    (maxRetries : Nat) : RetryRun :=
  fetchLoop script nows jitters maxRetries 0 (maxRetries + 1)

example :
    fetchWithRetry (fun _ => .success ⟨200, none, none⟩) (fun _ => 0) (fun _ => 0) 3 =
      ⟨.returned ⟨200, none, none⟩, [], 1⟩ := by decide

example :
    fetchWithRetry (fun _ => .success ⟨404, none, none⟩) (fun _ => 0) (fun _ => 0) 3 =
      ⟨.returned ⟨404, none, none⟩, [], 1⟩ := by decide

example :
    fetchWithRetry (fun _ => .success ⟨429, none, some 5⟩) (fun _ => 0) (fun _ => 0) 1 =
      ⟨.returned ⟨429, none, some 5⟩, [5500], 2⟩ := by decide

/-! ## Provider payload shapes (github.ts lines 4-94) -/

structure GitHubRelease where
  id : Nat
  tag_name : String
  name : Option String
  body : Option String
  html_url : String
  prerelease : Bool
  draft : Bool
  published_at : Option String
deriving DecidableEq, Repr

structure GitHubCommitAuthor where
  date : Option String
deriving DecidableEq, Repr

structure GitHubCommitInner where
  message : String
  author : Option GitHubCommitAuthor
deriving DecidableEq, Repr

structure GitHubCommit where
  sha : String
  html_url : String
  commit : GitHubCommitInner
deriving DecidableEq, Repr

structure GitLabRelease where
  tag_name : String
  name : Option String
  description : Option String
  released_at : Option String
  created_at : Option String
deriving DecidableEq, Repr

structure GitLabCommit where
  id : String
  short_id : String
  title : String
  message : String
  authored_date : Option String
  web_url : String
deriving DecidableEq, Repr

structure GiteaRelease where
  id : Nat
  tag_name : String
  name : Option String
  body : Option String
  html_url : String
  prerelease : Bool
  draft : Bool
  published_at : Option String
deriving DecidableEq, Repr

/-- Gitea commits share the GitHub commit's nested shape. -/
structure GiteaCommit where
  sha : String
  html_url : String
  commit : GitHubCommitInner
deriving DecidableEq, Repr

/-! ## Commit-entry mappers (github.ts lines 253-301) -/

/-- Embedding of `mapGitHubCommitsToEntries` (github.ts lines 253-276). -/
def mapGitHubCommitsToEntries (source : RepoSourceWithToken)
    (commits : List GitHubCommit) : List AggregatedRelease :=
  commits.map fun commit =>
    let message := jsTrim commit.commit.message
    let firstLine := jsTrim (String.mk (message.toList.takeWhile (· ≠ '\n')))
    let title := if jsTruthy firstLine then firstLine else "Commit " ++ jsSlice 7 commit.sha
    let excerpt := jsSlice COMMITS_PREVIEW_LIMIT (markdownToPlainText message)
    { id := buildCommitId source.id commit.sha
      sourceId := source.id
      sourceName := source.displayName
      provider := source.provider
      repository := source.owner ++ "/" ++ source.repo
      kind := .commit
      tagName := jsSlice 7 commit.sha
      name := title
      body := message
      bodyExcerpt := excerpt
      htmlUrl := commit.html_url
      prerelease := false
      draft := false
      publishedAt := (commit.commit.author.bind GitHubCommitAuthor.date).getD epochIso }

/-- Embedding of `mapGitLabCommitsToEntries` (github.ts lines 278-301). -/
def mapGitLabCommitsToEntries (source : RepoSourceWithToken)
    (commits : List GitLabCommit) : List AggregatedRelease :=
  commits.map fun commit =>
    let message := jsTrim commit.message
    let titleTrimmed := jsTrim commit.title
    let firstLine := jsTrim (String.mk (message.toList.takeWhile (· ≠ '\n')))
    let title :=
      if jsTruthy titleTrimmed then titleTrimmed
      else if jsTruthy firstLine then firstLine
      else "Commit " ++ commit.short_id
    let excerpt := jsSlice COMMITS_PREVIEW_LIMIT (markdownToPlainText message)
    { id := buildCommitId source.id commit.id
      sourceId := source.id
      sourceName := source.displayName
      provider := source.provider
      repository := source.owner ++ "/" ++ source.repo
      kind := .commit
      tagName := jsSlice 8 (if jsTruthy commit.short_id then commit.short_id else commit.id)
      name := title
      body := message
      bodyExcerpt := excerpt
      htmlUrl := commit.web_url
      prerelease := false
      draft := false
      publishedAt := commit.authored_date.getD epochIso }

/-! ## Provider adapters (github.ts lines 367-748)

Each adapter's HTTP requests are oracles of type `AdapterFetchOutcome`:
either the exception a `fetchWithRetry` call threw (already reduced to its
message), or the last response, carrying the status, the text that
`response.text()` would produce, and the value `response.json()` would
deserialize to.  Each release-capable adapter additionally reports whether
it issued the commit-fallback request, so that fallback-suppression claims
are observable. -/

/-- Outcome of one adapter-level HTTP request. -/
inductive AdapterFetchOutcome (α : Type) where
  | netError (msg : String)
  | response (status : Nat) (bodyText : String) (payload : α)
deriving DecidableEq, Repr

/-- The `{releases, error}` record every adapter returns. -/
structure FetchResult where
  releases : List AggregatedRelease
  error : Option String
deriving DecidableEq, Repr

/-- Embedding of `fetchGitHubCommitFallback` (github.ts lines 367-395). -/
def fetchGitHubCommitFallback (source : RepoSourceWithToken)
    (outcome : AdapterFetchOutcome (List GitHubCommit)) : FetchResult :=
  match outcome with
  | .netError msg => ⟨[], some ("Network error: " ++ msg)⟩
  | .response status bodyText payload =>
    if httpOk status then ⟨mapGitHubCommitsToEntries source payload, none⟩
    else ⟨[], some (formatApiError source.provider status bodyText)⟩

/-- Embedding of `fetchGitLabCommitFallback` (github.ts lines 397-426). -/
def fetchGitLabCommitFallback (source : RepoSourceWithToken)
    (outcome : AdapterFetchOutcome (List GitLabCommit)) : FetchResult :=
  match outcome with
  | .netError msg => ⟨[], some ("Network error: " ++ msg)⟩
  | .response status bodyText payload =>
    if httpOk status then ⟨mapGitLabCommitsToEntries source payload, none⟩
    else ⟨[], some (formatApiError source.provider status bodyText)⟩

/-- Embedding of the inner `fetchGiteaCommitFallback` (github.ts lines
644-676), including its reshaping of Gitea commits into the GitHub shape. -/
def fetchGiteaCommitFallback (source : RepoSourceWithToken)
    (outcome : AdapterFetchOutcome (List GiteaCommit)) : FetchResult :=
  match outcome with
  | .netError msg => ⟨[], some ("Network error: " ++ msg)⟩
  | .response status bodyText payload =>
    if httpOk status then
      ⟨mapGitHubCommitsToEntries source (payload.map fun c => ⟨c.sha, c.html_url, c.commit⟩), none⟩
    else ⟨[], some (formatApiError source.provider status bodyText)⟩

/-- The release-record mapping inlined in `fetchGitHubSource`
(github.ts lines 514-536). -/
def mapGitHubReleaseToEntry (source : RepoSourceWithToken)
    (release : GitHubRelease) : AggregatedRelease :=
  let body := release.body.getD ""
  { id := buildReleaseId source.id (toString release.id)
    sourceId := source.id
    sourceName := source.displayName
    provider := source.provider
    repository := source.owner ++ "/" ++ source.repo
    kind := .release
    tagName := release.tag_name
    name := release.name.getD release.tag_name
    body := body
    bodyExcerpt := jsSlice RELEASES_PREVIEW_LIMIT (markdownToPlainText body)
    htmlUrl := release.html_url
    prerelease := release.prerelease
    draft := release.draft
    publishedAt := release.published_at.getD epochIso }

/-- Embedding of `fetchGitHubSource` (github.ts lines 477-548).  The second
component records whether the commit fallback request was issued. -/
def fetchGitHubSource (source : RepoSourceWithToken)
    (primary : AdapterFetchOutcome (List GitHubRelease))
    (fallbackOutcome : AdapterFetchOutcome (List GitHubCommit)) : FetchResult × Bool :=
  match primary with
  | .netError msg => (⟨[], some ("Network error: " ++ msg)⟩, false)
  | .response status bodyText payload =>
    if httpOk status then
      let releases := (payload.filter fun r =>
          jsTruthyOpt r.published_at || jsTruthyOpt r.name || jsTruthy r.tag_name).map
          (mapGitHubReleaseToEntry source)
      if releases = [] then
        let commitFallback := fetchGitHubCommitFallback source fallbackOutcome
        if commitFallback.releases ≠ [] then (⟨commitFallback.releases, none⟩, true)
        else (⟨[], commitFallback.error⟩, true)
      else (⟨releases, none⟩, false)
    else
      let releaseError := formatApiError source.provider status bodyText
      if status = 403 ∧ jsIncludes bodyText "rate limit" then (⟨[], some releaseError⟩, false)
      else
        let commitFallback := fetchGitHubCommitFallback source fallbackOutcome
        if commitFallback.releases ≠ [] then (⟨commitFallback.releases, none⟩, true)
        else (⟨[], some (commitFallback.error.getD releaseError)⟩, true)

/-- The release-record mapping inlined in `fetchGitLabSource`
(github.ts lines 588-612). -/
def mapGitLabReleaseToEntry (source : RepoSourceWithToken) (webBase : String)
    (release : GitLabRelease) : AggregatedRelease :=
  let body := release.description.getD ""
  { id := buildReleaseId source.id release.tag_name
    sourceId := source.id
    sourceName := source.displayName
    provider := source.provider
    repository := source.owner ++ "/" ++ source.repo
    kind := .release
    tagName := release.tag_name
    name := release.name.getD release.tag_name
    body := body
    bodyExcerpt := jsSlice RELEASES_PREVIEW_LIMIT (markdownToPlainText body)
    htmlUrl := webBase ++ "/" ++ source.owner ++ "/" ++ source.repo ++ "/-/releases/" ++ release.tag_name
    prerelease := false
    draft := false
    publishedAt := ((release.released_at).or release.created_at).getD epochIso }

/-- Embedding of `fetchGitLabSource` (github.ts lines 550-624).  The second
component records whether the commit fallback request was issued. -/
def fetchGitLabSource (source : RepoSourceWithToken)
    (primary : AdapterFetchOutcome (List GitLabRelease))
    (fallbackOutcome : AdapterFetchOutcome (List GitLabCommit)) : FetchResult × Bool :=
  match primary with
  | .netError msg => (⟨[], some ("Network error: " ++ msg)⟩, false)
  | .response status bodyText payload =>
    if httpOk status then
      let webBase := inferWebBaseUrl source
      let releases := (payload.filter fun r =>
          jsTruthy r.tag_name || jsTruthyOpt r.name || jsTruthyOpt r.released_at).map
          (mapGitLabReleaseToEntry source webBase)
      if releases = [] then
        let commitFallback := fetchGitLabCommitFallback source fallbackOutcome
        if commitFallback.releases ≠ [] then (⟨commitFallback.releases, none⟩, true)
        else (⟨[], commitFallback.error⟩, true)
      else (⟨releases, none⟩, false)
    else
      let releaseError := formatApiError source.provider status bodyText
      if status = 429 then (⟨[], some releaseError⟩, false)
      else
        let commitFallback := fetchGitLabCommitFallback source fallbackOutcome
        if commitFallback.releases ≠ [] then (⟨commitFallback.releases, none⟩, true)
        else (⟨[], some (commitFallback.error.getD releaseError)⟩, true)

/-- The release-record mapping inlined in `fetchGiteaSource`
(github.ts lines 694-717). -/
def mapGiteaReleaseToEntry (source : RepoSourceWithToken)
    (release : GiteaRelease) : AggregatedRelease :=
  let body := release.body.getD ""
  { id := buildReleaseId source.id (toString release.id)
    sourceId := source.id
    sourceName := source.displayName
    provider := source.provider
    repository := source.owner ++ "/" ++ source.repo
    kind := .release
    tagName := release.tag_name
    name := release.name.getD release.tag_name
    body := body
    bodyExcerpt := jsSlice RELEASES_PREVIEW_LIMIT (markdownToPlainText body)
    htmlUrl := release.html_url
    prerelease := release.prerelease
    draft := release.draft
    publishedAt := release.published_at.getD epochIso }

/-- Embedding of `fetchGiteaSource` (github.ts lines 626-730).  The second
component records whether the commit fallback request was issued. -/
def fetchGiteaSource (source : RepoSourceWithToken)
    (primary : AdapterFetchOutcome (List GiteaRelease))
    (fallbackOutcome : AdapterFetchOutcome (List GiteaCommit)) : FetchResult × Bool :=
  match primary with
  | .netError msg => (⟨[], some ("Network error: " ++ msg)⟩, false)
  | .response status bodyText payload =>
    if httpOk status then
      let releases := (payload.filter fun r =>
          jsTruthyOpt r.published_at || jsTruthyOpt r.name || jsTruthy r.tag_name).map
          (mapGiteaReleaseToEntry source)
      if releases = [] then
        let commitFallback := fetchGiteaCommitFallback source fallbackOutcome
        if commitFallback.releases ≠ [] then (⟨commitFallback.releases, none⟩, true)
        else (⟨[], commitFallback.error⟩, true)
      else (⟨releases, none⟩, false)
    else
      let releaseError := formatApiError source.provider status bodyText
      if status = 429 then (⟨[], some releaseError⟩, false)
      else
        let commitFallback := fetchGiteaCommitFallback source fallbackOutcome
        if commitFallback.releases ≠ [] then (⟨commitFallback.releases, none⟩, true)
        else (⟨[], some (commitFallback.error.getD releaseError)⟩, true)

/-! ## Bitbucket commit request construction (github.ts lines 428-441) -/

/-- A URL together with its `searchParams`, as built with `new URL` and
`url.searchParams.set`. -/
structure BuiltRequest where
  url : String
  params : List (String × String)
deriving DecidableEq, Repr

/-- Embedding of the URL and page-size-parameter construction of
`fetchBitbucketCommitFallback` (github.ts lines 431-441).  `enc` models
`encodeURIComponent`. -/
def bitbucketCommitRequest (enc : String → String) (source : RepoSourceWithToken) : BuiltRequest :=
  let apiBase := inferApiBaseUrl source
  let useServerApi := isBitbucketServerApiBase apiBase
  if useServerApi then
    ⟨apiBase ++ "/projects/" ++ enc source.owner ++ "/repos/" ++ enc source.repo ++ "/commits",
     [("limit", toString (min 100 (max 1 source.releasesLimit)))]⟩
  else
    ⟨apiBase ++ "/repositories/" ++ source.owner ++ "/" ++ source.repo ++ "/commits",
     [("pagelen", toString (min 100 (max 1 source.releasesLimit)))]⟩

/-! ## Merged-release sorting

`getUnifiedChangelog` sorts with
`.sort((a, b) => new Date(b.publishedAt).getTime() - new Date(a.publishedAt).getTime())`.
`Array.prototype.sort` is stable (ES2019) and the comparator is induced by a
numeric key, so the result is the unique stable descending-by-key ordering;
the insertion sort below computes exactly that ordering.  Date parsing
(`new Date(s).getTime()`) is an external primitive and is passed in as a
key function `String → Int`. -/

/-- Insert `r` before the first element whose key is not larger, keeping
earlier elements with equal keys in front (stability). -/
def insertReleaseDesc (key : String → Int) (r : AggregatedRelease) :
    List AggregatedRelease → List AggregatedRelease
  | [] => [r]
  | x :: xs =>
    if key r.publishedAt < key x.publishedAt then x :: insertReleaseDesc key r xs
    else r :: x :: xs

/-- Stable sort, descending by `key ∘ publishedAt`. -/
def sortReleasesDesc (key : String → Int) : List AggregatedRelease → List AggregatedRelease
  | [] => []
  | a :: l => insertReleaseDesc key a (sortReleasesDesc key l)

/-- Adjacent-pairs check: every element's key is ≤ its predecessor's. -/
def weaklySortedDescBy (key : String → Int) : List AggregatedRelease → Bool
  | [] => true
  | [_] => true
  | a :: b :: rest =>
    decide (key b.publishedAt ≤ key a.publishedAt) && weaklySortedDescBy key (b :: rest)

/-- Adjacent-pairs check: every element's key is < its predecessor's. -/
def strictlySortedDescBy (key : String → Int) : List AggregatedRelease → Bool
  | [] => true
  | [_] => true
  | a :: b :: rest =>
    decide (key b.publishedAt < key a.publishedAt) && strictlySortedDescBy key (b :: rest)

theorem insertReleaseDesc_perm (key : String → Int) (r : AggregatedRelease)
    (l : List AggregatedRelease) : List.Perm (insertReleaseDesc key r l) (r :: l) := by
  induction l with
  | nil => simp [insertReleaseDesc]
  | cons x xs ih =>
    simp only [insertReleaseDesc]
    split
    · exact (ih.cons x).trans (List.Perm.swap r x xs)
    · exact List.Perm.refl _

theorem sortReleasesDesc_perm (key : String → Int) (l : List AggregatedRelease) :
    List.Perm (sortReleasesDesc key l) l := by
  induction l with
  | nil => simp [sortReleasesDesc]
  | cons a l ih =>
    exact (insertReleaseDesc_perm key a (sortReleasesDesc key l)).trans (ih.cons a)

theorem mem_sortReleasesDesc (key : String → Int) (r : AggregatedRelease)
    (l : List AggregatedRelease) : r ∈ sortReleasesDesc key l ↔ r ∈ l :=
  (sortReleasesDesc_perm key l).mem_iff

theorem sortReleasesDesc_eq_nil_iff (key : String → Int) (l : List AggregatedRelease) :
    sortReleasesDesc key l = [] ↔ l = [] := by
  constructor
  · intro h
    have hlen := (sortReleasesDesc_perm key l).length_eq
    rw [h] at hlen
    exact List.length_eq_zero.mp hlen.symm
  · intro h
    subst h
    simp [sortReleasesDesc]

theorem insertReleaseDesc_cons (key : String → Int) (r x : AggregatedRelease)
    (xs : List AggregatedRelease) :
    insertReleaseDesc key r (x :: xs) =
      if key r.publishedAt < key x.publishedAt then x :: insertReleaseDesc key r xs
      else r :: x :: xs := rfl

theorem weaklySortedDescBy_cons_cons (key : String → Int) (a b : AggregatedRelease)
    (rest : List AggregatedRelease) :
    weaklySortedDescBy key (a :: b :: rest) =
      (decide (key b.publishedAt ≤ key a.publishedAt) && weaklySortedDescBy key (b :: rest)) := rfl

theorem weaklySorted_insertReleaseDesc (key : String → Int) (r : AggregatedRelease) :
    ∀ l, weaklySortedDescBy key l = true →
      weaklySortedDescBy key (insertReleaseDesc key r l) = true := by
  intro l
  induction l with
  | nil => intro _; rfl
  | cons x xs ih =>
    intro h
    have hxs : weaklySortedDescBy key xs = true := by
      cases xs with
      | nil => rfl
      | cons y ys =>
        rw [weaklySortedDescBy_cons_cons, Bool.and_eq_true] at h
        exact h.2
    rw [insertReleaseDesc_cons]
    by_cases hlt : key r.publishedAt < key x.publishedAt
    · rw [if_pos hlt]
      cases xs with
      | nil =>
        show weaklySortedDescBy key (x :: [r]) = true
        rw [weaklySortedDescBy_cons_cons, Bool.and_eq_true]
        exact ⟨decide_eq_true (le_of_lt hlt), rfl⟩
      | cons y ys =>
        rw [insertReleaseDesc_cons]
        by_cases hlt2 : key r.publishedAt < key y.publishedAt
        · rw [if_pos hlt2]
          rw [weaklySortedDescBy_cons_cons, Bool.and_eq_true]
          refine ⟨?_, ?_⟩
          · rw [weaklySortedDescBy_cons_cons, Bool.and_eq_true] at h
            exact h.1
          · have hrec := ih hxs
            rw [insertReleaseDesc_cons, if_pos hlt2] at hrec
            exact hrec
        · rw [if_neg hlt2]
          rw [weaklySortedDescBy_cons_cons, Bool.and_eq_true]
          refine ⟨decide_eq_true (le_of_lt hlt), ?_⟩
          rw [weaklySortedDescBy_cons_cons, Bool.and_eq_true]
          exact ⟨decide_eq_true (by omega), hxs⟩
    · rw [if_neg hlt]
      rw [weaklySortedDescBy_cons_cons, Bool.and_eq_true]
      exact ⟨decide_eq_true (by omega), h⟩

theorem weaklySorted_sortReleasesDesc (key : String → Int) (l : List AggregatedRelease) :
    weaklySortedDescBy key (sortReleasesDesc key l) = true := by
  induction l with
  | nil => simp [sortReleasesDesc, weaklySortedDescBy]
  | cons a l ih => exact weaklySorted_insertReleaseDesc key a _ ih

/-! ## Aggregation orchestrator: `getUnifiedChangelog`
(changelog module bundled in src/lib/admin-auth.ts, lines 160-250)

State and collaborators are explicit: `cache` is the module-level `Map`
(as a function from page ids), and `OrchEnv` packages the run's `Date.now()`
reading, the `new Date().toISOString()` stamp, the `new Date(s).getTime()`
parser, the `getChangelogSnapshot` store, the `listEnabledRepoSourcesWithTokens`
store, and the per-source outcome of `fetchReleasesForSource` (the adapters
never throw: every failure is already a `FetchResult` with `error` set, and
a thrown network exception is modelled by `AdapterFetchOutcome.netError`
inside the adapters above).  Alongside the payload, the embedding returns
the updated cache and an effect log recording whether the snapshot was
read, which sources were fetched, and what was written. -/

def CACHE_WINDOW_MS : Int := 1000 * 60 * 3

/-- One entry of the module-level `cache` map; `validUntil` embeds the
source's `until` field (a Lean keyword). -/
structure CacheEntry where
  validUntil : Int
  payload : UnifiedChangelog
deriving DecidableEq, Repr

abbrev CacheMap := String → Option CacheEntry

/-- Models `cache.set(pageId, entry)`. -/
def cacheSet (cache : CacheMap) (pageId : String) (entry : CacheEntry) : CacheMap :=
  fun k => if k = pageId then some entry else cache k

/-- Models `invalidateChangelogCache` (lines 170-177): clear one page's
entry, or the whole map when no page id is given. -/
def invalidateChangelogCache (cache : CacheMap) (pageId : Option String) : CacheMap :=
  match pageId with
  | some p => fun k => if k = p then none else cache k
  | none => fun _ => none

/-- External collaborators and ambient readings of one orchestrator run. -/
structure OrchEnv where
  now : Int
  nowIso : String
  parseDate : String → Int
  snapshot : String → Option UnifiedChangelog
  sources : String → List RepoSourceWithToken
  fetchResult : RepoSourceWithToken → FetchResult

/-- Effect log of one orchestrator run. -/
structure OrchEffects where
  snapshotRead : Bool
  fetchedSources : List String
  snapshotWrite : Option UnifiedChangelog
  cacheWrite : Option CacheEntry
deriving DecidableEq, Repr

/-- Result of one orchestrator run: payload, updated cache, effect log. -/
structure OrchOutput where
  payload : UnifiedChangelog
  cache : CacheMap
  effects : OrchEffects

def noEffects : OrchEffects := ⟨false, [], none, none⟩

/-- The early-return cache consultation (lines 181-186): hit iff not
forced, an entry exists, and `Date.now() < cached.until`. -/
def cacheLookup (env : OrchEnv) (cache : CacheMap) (force : Bool) (pageId : String) :
    Option CacheEntry :=
  match cache pageId with
  | some cached => if force = false ∧ env.now < cached.validUntil then some cached else none
  | none => none

/-- The snapshot-promotion step (lines 188-198): when not forced and a
persisted snapshot's age is in `[0, CACHE_WINDOW_MS)`, it is returned. -/
def snapshotPromotion (env : OrchEnv) (force : Bool) (pageId : String) :
    Option UnifiedChangelog :=
  if force = false then
    match env.snapshot pageId with
    | some snap =>
      let snapshotAgeMs := env.now - env.parseDate snap.fetchedAt
      if 0 ≤ snapshotAgeMs ∧ snapshotAgeMs < CACHE_WINDOW_MS then some snap else none
    | none => none
  else none

/-- The per-source error collection of the fan-out (lines 203-216); the
embedding fixes source order, which leaves the claims unaffected since
each failing source pushes exactly one entry. -/
def buildSourceErrors (sources : List RepoSourceWithToken)
    (fetch : RepoSourceWithToken → FetchResult) : List SourceFetchError :=
  sources.filterMap fun source => (fetch source).error.map fun m =>
    ⟨source.id, source.displayName, source.owner ++ "/" ++ source.repo, m⟩

/-- `results.flat().sort(...)` (lines 218-220). -/
def mergedReleases (env : OrchEnv) (sources : List RepoSourceWithToken) :
    List AggregatedRelease :=
  sortReleasesDesc env.parseDate ((sources.map fun s => (env.fetchResult s).releases).flatten)

/-- Embedding of `getUnifiedChangelog` (lines 179-250). -/
def getUnifiedChangelog (env : OrchEnv) (cache : CacheMap) (force : Bool) (pageId : String) :
    OrchOutput :=
  match cacheLookup env cache force pageId with
  | some cached => ⟨cached.payload, cache, noEffects⟩
  | none =>
    let persistedSnapshot := env.snapshot pageId
    match snapshotPromotion env force pageId with
    | some snap =>
      let entry : CacheEntry := ⟨env.now + CACHE_WINDOW_MS, snap⟩
      ⟨snap, cacheSet cache pageId entry, ⟨true, [], none, some entry⟩⟩
    | none =>
      let sources := env.sources pageId
      let errors := buildSourceErrors sources env.fetchResult
      let releases := mergedReleases env sources
      let payload : UnifiedChangelog := ⟨env.nowIso, releases, errors⟩
      let fetched := sources.map RepoSourceWithToken.id
      match persistedSnapshot with
      | some snap =>
        if payload.releases = [] ∧ payload.errors ≠ [] ∧ snap.releases ≠ [] then
          let fallbackPayload : UnifiedChangelog := { snap with errors := payload.errors }
          let entry : CacheEntry := ⟨env.now + CACHE_WINDOW_MS, fallbackPayload⟩
          ⟨fallbackPayload, cacheSet cache pageId entry, ⟨true, fetched, none, some entry⟩⟩
        else
          let entry : CacheEntry := ⟨env.now + CACHE_WINDOW_MS, payload⟩
          ⟨payload, cacheSet cache pageId entry, ⟨true, fetched, some payload, some entry⟩⟩
      | none =>
        let entry : CacheEntry := ⟨env.now + CACHE_WINDOW_MS, payload⟩
        ⟨payload, cacheSet cache pageId entry, ⟨true, fetched, some payload, some entry⟩⟩

/-! ## Retry-loop lemmas -/

/-- Specification triple for one suffix of the retry loop starting at
`attempt`: the run never falls off the loop, a throw rethrows the final
attempt's network error, and a returned response was produced by some
attempt in range. -/
def RetryRunSpec (script : Nat → AttemptOutcome) (maxRetries attempt : Nat)
    (run : RetryRun) : Prop :=
  run.outcome ≠ .exhausted ∧
  (∀ msg, run.outcome = .threw msg → script maxRetries = .netError msg) ∧
  (∀ r, run.outcome = .returned r → ∃ k, attempt ≤ k ∧ k ≤ maxRetries ∧ script k = .success r)

theorem retryRunSpec_returned (script : Nat → AttemptOutcome) (maxRetries attempt : Nat)
    (r : RetryResponse) (sleeps : List Int) (attempts : Nat)
    (hs : script attempt = .success r) (hle : attempt ≤ maxRetries) :
    RetryRunSpec script maxRetries attempt ⟨.returned r, sleeps, attempts⟩ := by
  refine ⟨by simp, fun msg h => by simp at h, fun r' h => ?_⟩
  have hr : r = r' := by injection h
  subst hr
  exact ⟨attempt, Nat.le_refl _, hle, hs⟩

theorem retryRunSpec_threw (script : Nat → AttemptOutcome) (maxRetries : Nat)
    (msg : String) (sleeps : List Int) (attempts : Nat)
    (hs : script maxRetries = .netError msg) :
    RetryRunSpec script maxRetries maxRetries ⟨.threw msg, sleeps, attempts⟩ := by
  refine ⟨by simp, fun msg' h => ?_, fun r h => by simp at h⟩
  have hm : msg = msg' := by injection h
  subst hm
  exact hs

theorem retryRunSpec_step (script : Nat → AttemptOutcome) (maxRetries attempt : Nat)
    (s : Int) (rec : RetryRun)
    (h : RetryRunSpec script maxRetries (attempt + 1) rec) :
    RetryRunSpec script maxRetries attempt (retryStep s rec) := by
  obtain ⟨h1, h2, h3⟩ := h
  refine ⟨?_, ?_, ?_⟩
  · simpa [retryStep] using h1
  · intro msg hm
    exact h2 msg (by simpa [retryStep] using hm)
  · intro r hr
    obtain ⟨k, hk1, hk2, hk3⟩ := h3 r (by simpa [retryStep] using hr)
    exact ⟨k, by omega, hk2, hk3⟩

theorem fetchLoop_spec (script : Nat → AttemptOutcome) (nows jitters : Nat → Int)
    (maxRetries : Nat) :
    ∀ fuel attempt, attempt ≤ maxRetries → attempt + fuel = maxRetries + 1 →
      RetryRunSpec script maxRetries attempt
        (fetchLoop script nows jitters maxRetries attempt fuel) := by
  intro fuel
  induction fuel with
  | zero =>
    intro attempt h1 h2
    exact absurd h2 (by omega)
  | succ fuel ih =>
    intro attempt h1 _h2
    have hrec : ∀ _ : ¬ attempt = maxRetries,
        RetryRunSpec script maxRetries (attempt + 1)
          (fetchLoop script nows jitters maxRetries (attempt + 1) fuel) :=
      fun hne => ih (attempt + 1) (by omega) (by omega)
    cases hs : script attempt with
    | netError msg =>
      simp only [fetchLoop, hs]
      split
      · rename_i hm
        subst hm
        exact retryRunSpec_threw _ _ _ _ _ hs
      · rename_i hm
        exact retryRunSpec_step _ _ _ _ _ (hrec hm)
    | success r =>
      simp only [fetchLoop, hs]
      split
      · exact retryRunSpec_returned _ _ _ r _ _ hs h1
      · split
        · split
          · split
            · exact retryRunSpec_returned _ _ _ r _ _ hs h1
            · rename_i hm
              split
              · split
                · exact retryRunSpec_step _ _ _ _ _ (hrec hm)
                · exact retryRunSpec_returned _ _ _ r _ _ hs h1
              · exact retryRunSpec_step _ _ _ _ _ (hrec hm)
          · split
            · exact retryRunSpec_returned _ _ _ r _ _ hs h1
            · rename_i hm
              exact retryRunSpec_step _ _ _ _ _ (hrec hm)
        · split
          · exact retryRunSpec_returned _ _ _ r _ _ hs h1
          · split
            · exact retryRunSpec_returned _ _ _ r _ _ hs h1
            · rename_i hm
              exact retryRunSpec_step _ _ _ _ _ (hrec hm)

theorem fetchLoop_attempts_pos (script : Nat → AttemptOutcome) (nows jitters : Nat → Int)
    (maxRetries attempt fuel : Nat) (h : 1 ≤ fuel) :
    1 ≤ (fetchLoop script nows jitters maxRetries attempt fuel).attempts := by
  cases fuel with
  | zero => omega
  | succ fuel =>
    cases hs : script attempt with
    | netError msg =>
      simp only [fetchLoop, hs]
      split <;> simp [retryStep]
    | success r =>
      simp only [fetchLoop, hs]
      repeat' split
      all_goals simp [retryStep]

/-! ## Claim C9 -/

/-- C9: for every transport script and every `maxRetries ≥ 0`,
`fetchWithRetry` never reaches the post-loop
`throw new Error("Maximum retries exhausted")`; it throws only by
rethrowing a network-level exception that occurred on the final attempt
(`attempt = maxRetries`), and in every other case it returns a response
that some attempt in range produced, even a non-2xx one. -/
theorem c9_retry_no_exhaustion (script : Nat → AttemptOutcome)
    (nows jitters : Nat → Int) (maxRetries : Nat) :
    (fetchWithRetry script nows jitters maxRetries).outcome ≠ .exhausted ∧
    (∀ msg, (fetchWithRetry script nows jitters maxRetries).outcome = .threw msg →
      script maxRetries = .netError msg) ∧
    (∀ r, (fetchWithRetry script nows jitters maxRetries).outcome = .returned r →
      ∃ k, k ≤ maxRetries ∧ script k = .success r) := by
  obtain ⟨h1, h2, h3⟩ :=
    fetchLoop_spec script nows jitters maxRetries (maxRetries + 1) 0 (by omega) (by omega)
  refine ⟨h1, h2, fun r hr => ?_⟩
  obtain ⟨k, _, hk2, hk3⟩ := h3 r hr
  exact ⟨k, hk2, hk3⟩

/-- A transport that always throws, used to witness C9's hypotheses. -/
def retryScriptAllFail : Nat → AttemptOutcome := fun _ => .netError "boom"

theorem c9_retry_no_exhaustion_witness :
    (fetchWithRetry retryScriptAllFail (fun _ => 0) (fun _ => 0) 1).outcome ≠ .exhausted ∧
    retryScriptAllFail 1 = .netError "boom" := by
  constructor
  · exact (c9_retry_no_exhaustion retryScriptAllFail (fun _ => 0) (fun _ => 0) 1).1
  · exact (c9_retry_no_exhaustion retryScriptAllFail (fun _ => 0) (fun _ => 0) 1).2.1 "boom"
      (by decide)

/-! ## Claim C5 -/

theorem fetchLoop_rate_limit_reset_step (script : Nat → AttemptOutcome)
    (nows jitters : Nat → Int) (maxRetries : Nat) (r : RetryResponse) (resetSec : Int)
    (attempt fuel : Nat)
    (h0 : script attempt = .success r)
    (hok : httpOk r.status = false)
    (hst : r.status = 403 ∨ r.status = 429)
    (hrl : r.rateLimitRemaining = some "0" ∨ r.status = 429)
    (hne : ¬ attempt = maxRetries)
    (hreset : r.rateLimitReset = some resetSec) :
    fetchLoop script nows jitters maxRetries attempt (fuel + 1) =
      if rateLimitWaitTime resetSec (nows attempt) < 10000 then
        retryStep (rateLimitWaitTime resetSec (nows attempt) + 500)
          (fetchLoop script nows jitters maxRetries (attempt + 1) fuel)
      else ⟨.returned r, [], 1⟩ := by
  simp only [fetchLoop, h0]
  rw [if_neg (by simp [hok]), if_pos hst, if_pos hrl, if_neg hne, hreset]

/-- C5 (amended): for every rate-limited response (status 429, or 403 with
the remaining-quota header `"0"`) carrying a reset-time header, received on
the first attempt with at least one retry left: when the computed wait is
STRICTLY below 10 seconds, `fetchWithRetry` sleeps that wait plus a 500 ms
buffer and performs at least one further attempt; when the wait is 10
seconds or more, it returns that response immediately after a single
attempt with no sleep.  (The claim's "at most 10 seconds" boundary is
wrong: the source tests `waitTimeStr < 10000`, so a wait of exactly
10 seconds returns immediately — see the counterexample.) -/
theorem c5_rate_limit_reset_wait (script : Nat → AttemptOutcome)
    (nows jitters : Nat → Int) (maxRetries : Nat) (r : RetryResponse) (resetSec : Int)
    (h0 : script 0 = .success r)
    (hrl : r.status = 429 ∨ (r.status = 403 ∧ r.rateLimitRemaining = some "0"))
    (hreset : r.rateLimitReset = some resetSec)
    (hmax : 1 ≤ maxRetries) :
    (rateLimitWaitTime resetSec (nows 0) < 10000 →
      (fetchWithRetry script nows jitters maxRetries).sleeps.head? =
        some (rateLimitWaitTime resetSec (nows 0) + 500) ∧
      2 ≤ (fetchWithRetry script nows jitters maxRetries).attempts) ∧
    (10000 ≤ rateLimitWaitTime resetSec (nows 0) →
      fetchWithRetry script nows jitters maxRetries = ⟨.returned r, [], 1⟩) := by
  have hok : httpOk r.status = false := by
    rcases hrl with h | ⟨h, _⟩ <;> simp [httpOk, h]
  have hst : r.status = 403 ∨ r.status = 429 := by
    rcases hrl with h | ⟨h, _⟩
    · exact Or.inr h
    · exact Or.inl h
  have hrl' : r.rateLimitRemaining = some "0" ∨ r.status = 429 := by
    rcases hrl with h | ⟨_, h⟩
    · exact Or.inr h
    · exact Or.inl h
  have hne : ¬ (0 = maxRetries) := by omega
  obtain ⟨fuel, hfuel⟩ : ∃ fuel, maxRetries + 1 = fuel + 1 := ⟨maxRetries, rfl⟩
  have hstep := fetchLoop_rate_limit_reset_step script nows jitters maxRetries r resetSec
    0 maxRetries h0 hok hst hrl' hne hreset
  constructor
  · intro hw
    have hrun : fetchWithRetry script nows jitters maxRetries =
        retryStep (rateLimitWaitTime resetSec (nows 0) + 500)
          (fetchLoop script nows jitters maxRetries 1 maxRetries) := by
      show fetchLoop script nows jitters maxRetries 0 (maxRetries + 1) = _
      rw [hstep, if_pos hw]
    rw [hrun]
    refine ⟨rfl, ?_⟩
    have hpos := fetchLoop_attempts_pos script nows jitters maxRetries 1 maxRetries hmax
    simp only [retryStep]
    omega
  · intro hw
    show fetchLoop script nows jitters maxRetries 0 (maxRetries + 1) = _
    rw [hstep, if_neg (by omega)]

/-- A 429 response whose rate-limit reset lies exactly 10 seconds after
the clock reading 0. -/
def rateLimitedResponse10s : RetryResponse := ⟨429, none, some 10⟩

/-- C5 (counterexample): a 429 response whose reset-time header is exactly
10 seconds away — "at most 10 seconds" in the claim's words — is returned
immediately after one attempt with no sleep, because the source retries
only when the wait is strictly less than 10000 ms. -/
theorem c5_rate_limit_reset_wait_counterexample :
    rateLimitWaitTime 10 0 = 10000 ∧
    fetchWithRetry (fun _ => .success rateLimitedResponse10s) (fun _ => 0) (fun _ => 0) 3 =
      ⟨.returned rateLimitedResponse10s, [], 1⟩ := by
  constructor
  · decide
  · decide

theorem c5_rate_limit_reset_wait_witness :
    rateLimitWaitTime 5 0 < 10000 ∧
    (fetchWithRetry (fun _ => .success ⟨429, none, some 5⟩) (fun _ => 0) (fun _ => 0) 3).sleeps.head? =
      some (rateLimitWaitTime 5 0 + 500) ∧
    2 ≤ (fetchWithRetry (fun _ => .success ⟨429, none, some 5⟩) (fun _ => 0) (fun _ => 0) 3).attempts := by
  have h := (c5_rate_limit_reset_wait (fun _ => .success ⟨429, none, some 5⟩) (fun _ => 0)
    (fun _ => 0) 3 ⟨429, none, some 5⟩ 5 rfl (Or.inl rfl) rfl (by omega)).1 (by decide)
  exact ⟨by decide, h.1, h.2⟩

/-! ## Claim C6 -/

/-- C6 (amended): the rate-limit signals that suppress the commit fallback
are provider-specific, not uniform.  For any non-2xx primary response: the
GitHub adapter skips the fallback and returns the formatted error exactly
when the status is 403 AND the body contains "rate limit"; the GitLab and
Gitea adapters skip it exactly when the status is 429.  (The claim's
uniform rule fails: a GitHub 429 still attempts the fallback — see the
counterexample — and the Bitbucket adapter is commit-only, with no releases
request to fail.) -/
theorem c6_rate_limit_fallback_suppression (source : RepoSourceWithToken)
    (status : Nat) (bodyText : String)
    (ghPayload : List GitHubRelease) (ghFallback : AdapterFetchOutcome (List GitHubCommit))
    (glPayload : List GitLabRelease) (glFallback : AdapterFetchOutcome (List GitLabCommit))
    (gtPayload : List GiteaRelease) (gtFallback : AdapterFetchOutcome (List GiteaCommit))
    (hok : httpOk status = false) :
    ((fetchGitHubSource source (.response status bodyText ghPayload) ghFallback).2 = false ↔
      status = 403 ∧ jsIncludes bodyText "rate limit" = true) ∧
    (status = 403 ∧ jsIncludes bodyText "rate limit" = true →
      (fetchGitHubSource source (.response status bodyText ghPayload) ghFallback).1 =
        ⟨[], some (formatApiError source.provider status bodyText)⟩) ∧
    ((fetchGitLabSource source (.response status bodyText glPayload) glFallback).2 = false ↔
      status = 429) ∧
    (status = 429 →
      (fetchGitLabSource source (.response status bodyText glPayload) glFallback).1 =
        ⟨[], some (formatApiError source.provider status bodyText)⟩) ∧
    ((fetchGiteaSource source (.response status bodyText gtPayload) gtFallback).2 = false ↔
      status = 429) ∧
    (status = 429 →
      (fetchGiteaSource source (.response status bodyText gtPayload) gtFallback).1 =
        ⟨[], some (formatApiError source.provider status bodyText)⟩) := by
  refine ⟨?_, ?_, ?_, ?_, ?_, ?_⟩
  · by_cases hcond : status = 403 ∧ jsIncludes bodyText "rate limit" = true
    · obtain ⟨h403, hinc⟩ := hcond
      subst h403
      simp [fetchGitHubSource, hok, hinc]
    · simp only [fetchGitHubSource, hok, Bool.false_eq_true, if_false, if_neg hcond]
      split <;> simp [hcond]
  · intro hcond
    obtain ⟨h403, hinc⟩ := hcond
    subst h403
    simp [fetchGitHubSource, hok, hinc]
  · by_cases hcond : status = 429
    · subst hcond
      simp [fetchGitLabSource, hok]
    · simp only [fetchGitLabSource, hok, Bool.false_eq_true, if_false, if_neg hcond]
      split <;> simp [hcond]
  · intro hcond
    subst hcond
    simp [fetchGitLabSource, hok]
  · by_cases hcond : status = 429
    · subst hcond
      simp [fetchGiteaSource, hok]
    · simp only [fetchGiteaSource, hok, Bool.false_eq_true, if_false, if_neg hcond]
      split <;> simp [hcond]
  · intro hcond
    subst hcond
    simp [fetchGiteaSource, hok]

/-- A plain GitHub source used by concrete evaluations. -/
def srcGitHubDemo : RepoSourceWithToken :=
  { id := "src-1", pageId := "page-1", displayName := "Demo", provider := .github,
    owner := "acme", repo := "tool", baseUrl := none, isPrivate := false,
    hasToken := false, enabled := true, releasesLimit := 5,
    createdAt := "", updatedAt := "", token := none }

/-- A plain GitLab source used by concrete evaluations. -/
def srcGitLabDemo : RepoSourceWithToken :=
  { id := "src-2", pageId := "page-1", displayName := "Lab", provider := .gitlab,
    owner := "acme", repo := "lib", baseUrl := none, isPrivate := false,
    hasToken := false, enabled := true, releasesLimit := 5,
    createdAt := "", updatedAt := "", token := none }

/-- A commit payload for fallback evaluations. -/
def ghCommitDemo : GitHubCommit :=
  ⟨"deadbeef001", "https://github.com/acme/tool/commit/deadbeef001",
   ⟨"Add feature", some ⟨some "2024-01-02T00:00:00.000Z"⟩⟩⟩

/-- C6 (counterexample): a 429 from the GitHub releases endpoint — an
unambiguous rate-limit signal in the claim's terms, whose body even spells
out "rate limit" — does not stop the GitHub adapter: it issues the commit
fallback request and returns the fallback commits with no error instead of
the formatted rate-limit error. -/
theorem c6_rate_limit_fallback_suppression_counterexample :
    (fetchGitHubSource srcGitHubDemo (.response 429 "API rate limit exceeded" [])
        (.response 200 "" [ghCommitDemo])).2 = true ∧
    (fetchGitHubSource srcGitHubDemo (.response 429 "API rate limit exceeded" [])
        (.response 200 "" [ghCommitDemo])).1.error = none := by
  constructor <;> decide

theorem c6_rate_limit_fallback_suppression_witness :
    (fetchGitHubSource srcGitHubDemo (.response 403 "API rate limit exceeded for 1.2.3.4" [])
        (.response 200 "" [ghCommitDemo])).2 = false ∧
    (fetchGitLabSource srcGitLabDemo (.response 429 "Too Many Requests" [])
        (.netError "unused")).2 = false := by
  have h403 := c6_rate_limit_fallback_suppression srcGitHubDemo 403
    "API rate limit exceeded for 1.2.3.4" [] (.response 200 "" [ghCommitDemo])
    [] (.netError "unused") [] (.netError "unused") (by decide)
  have h429 := c6_rate_limit_fallback_suppression srcGitLabDemo 429
    "Too Many Requests" [] (.response 200 "" [ghCommitDemo])
    [] (.netError "unused") [] (.netError "unused") (by decide)
  exact ⟨h403.1.mpr ⟨rfl, by decide⟩, h429.2.2.1.mpr rfl⟩

/-! ## Claim C7 -/

/-- C7: the Bitbucket commit request adapts to the inferred API base: a
Server/Data-Center base (shape `…/rest/api/<major>.<minor>`) yields the
`projects/{owner}/repos/{repo}/commits` path with the `limit` page-size
parameter, and any other (Cloud) base yields
`repositories/{owner}/{repo}/commits` with `pagelen`. -/
theorem c7_bitbucket_request_shape (enc : String → String) (source : RepoSourceWithToken) :
    (isBitbucketServerApiBase (inferApiBaseUrl source) = true →
      bitbucketCommitRequest enc source =
        ⟨inferApiBaseUrl source ++ "/projects/" ++ enc source.owner ++ "/repos/" ++
            enc source.repo ++ "/commits",
          [("limit", toString (min 100 (max 1 source.releasesLimit)))]⟩) ∧
    (isBitbucketServerApiBase (inferApiBaseUrl source) = false →
      bitbucketCommitRequest enc source =
        ⟨inferApiBaseUrl source ++ "/repositories/" ++ source.owner ++ "/" ++
            source.repo ++ "/commits",
          [("pagelen", toString (min 100 (max 1 source.releasesLimit)))]⟩) := by
  constructor
  · intro h
    simp [bitbucketCommitRequest, h]
  · intro h
    simp [bitbucketCommitRequest, h]

/-- A self-hosted Bitbucket Server source whose base URL ends in
`/rest/api/1.0`, matching the spec's scenario 4. -/
def srcBitbucketServerDemo : RepoSourceWithToken :=
  { id := "src-3", pageId := "page-1", displayName := "BB", provider := .bitbucket,
    owner := "acme", repo := "tool", baseUrl := some "https://git.example.com/rest/api/1.0",
    isPrivate := false, hasToken := false, enabled := true, releasesLimit := 10,
    createdAt := "", updatedAt := "", token := none }

theorem c7_bitbucket_request_shape_witness :
    isBitbucketServerApiBase (inferApiBaseUrl srcBitbucketServerDemo) = true ∧
    bitbucketCommitRequest (fun s => s) srcBitbucketServerDemo =
      ⟨"https://git.example.com/rest/api/1.0/projects/acme/repos/tool/commits",
        [("limit", "10")]⟩ := by
  refine ⟨by decide, ?_⟩
  rw [(c7_bitbucket_request_shape (fun s => s) srcBitbucketServerDemo).1 (by decide)]
  decide

/-! ## Claim C8 -/

/-- The commit of the spec's normalization example. -/
def commitFixBug : GitHubCommit :=
  ⟨"abcdef1234567", "https://github.com/acme/tool/commit/abcdef1234567",
   ⟨"Fix bug\n\nDetails here", some ⟨some "2024-05-01T10:00:00.000Z"⟩⟩⟩

/-- C8: normalizing the commit message `"Fix bug\n\nDetails here"` through
the commit-entry mapper yields `name = "Fix bug"`, and a `bodyExcerpt`
beginning with `"Fix bug Details here"` of length at most 360. -/
theorem c8_commit_message_normalization :
    ((mapGitHubCommitsToEntries srcGitHubDemo [commitFixBug]).map fun e => e.name) =
      ["Fix bug"] ∧
    ((mapGitHubCommitsToEntries srcGitHubDemo [commitFixBug]).all fun e =>
      listStartsWith "Fix bug Details here".toList e.bodyExcerpt.toList &&
        decide (e.bodyExcerpt.length ≤ 360)) = true := by
  constructor
  · decide
  · decide

/-! ## Orchestrator lemmas shared by the aggregation claims -/

/-- Any run that reaches the fetch phase reports exactly the freshly built
per-source errors, in both the normal and the stale-while-error branch. -/
theorem getUnifiedChangelog_fetch_errors (env : OrchEnv) (cache : CacheMap) (force : Bool)
    (pageId : String)
    (hcl : cacheLookup env cache force pageId = none)
    (hsp : snapshotPromotion env force pageId = none) :
    (getUnifiedChangelog env cache force pageId).payload.errors =
      buildSourceErrors (env.sources pageId) env.fetchResult := by
  simp only [getUnifiedChangelog, hcl, hsp]
  split
  · split
    · rfl
    · rfl
  · rfl

/-- Any run that reaches the fetch phase returns either the freshly merged
and sorted list, or (stale-while-error) a persisted snapshot's releases
while the merged list is empty. -/
theorem getUnifiedChangelog_fetch_releases (env : OrchEnv) (cache : CacheMap) (force : Bool)
    (pageId : String)
    (hcl : cacheLookup env cache force pageId = none)
    (hsp : snapshotPromotion env force pageId = none) :
    (getUnifiedChangelog env cache force pageId).payload.releases =
      mergedReleases env (env.sources pageId) ∨
    (mergedReleases env (env.sources pageId) = [] ∧
      ∃ snap, env.snapshot pageId = some snap ∧
        (getUnifiedChangelog env cache force pageId).payload.releases = snap.releases) := by
  simp only [getUnifiedChangelog, hcl, hsp]
  split
  · rename_i snap hsnap
    split
    · rename_i hcond
      exact Or.inr ⟨hcond.1, snap, hsnap, rfl⟩
    · exact Or.inl rfl
  · exact Or.inl rfl

theorem buildSourceErrors_length (sources : List RepoSourceWithToken)
    (fetch : RepoSourceWithToken → FetchResult) :
    (buildSourceErrors sources fetch).length =
      (sources.filter fun s => ((fetch s).error).isSome).length := by
  induction sources with
  | nil => rfl
  | cons s ss ih =>
    simp only [buildSourceErrors, List.filterMap_cons, List.filter_cons] at ih ⊢
    cases h : (fetch s).error with
    | none => simpa [h] using ih
    | some m => simpa [h] using ih

/-! ## Claim C1 -/

/-- C1 (amended): for every aggregation run that reaches the fetch phase,
the returned releases list is sorted in WEAKLY descending order of the
parsed `publishedAt` (given that a persisted snapshot served by the
stale-while-error branch is itself weakly sorted, which system-written
snapshots are).  Strict descent is impossible: two records may carry the
same `publishedAt`, and the comparator keeps both — see the
counterexample. -/
theorem c1_releases_weakly_sorted (env : OrchEnv) (cache : CacheMap) (force : Bool)
    (pageId : String)
    (hcl : cacheLookup env cache force pageId = none)
    (hsp : snapshotPromotion env force pageId = none)
    (hsnapSorted : ∀ snap, env.snapshot pageId = some snap →
      weaklySortedDescBy env.parseDate snap.releases = true) :
    weaklySortedDescBy env.parseDate
      (getUnifiedChangelog env cache force pageId).payload.releases = true := by
  rcases getUnifiedChangelog_fetch_releases env cache force pageId hcl hsp with
    h | ⟨_, snap, hsnap, h⟩
  · rw [h]
    exact weaklySorted_sortReleasesDesc env.parseDate _
  · rw [h]
    exact hsnapSorted snap hsnap

/-- Date table for the concrete runs below, standing in for
`new Date(s).getTime()`. -/
def demoParseDate : String → Int := fun s =>
  if s = "1970-01-01T00:00:00.000Z" then 0
  else if s = "2024-01-01T00:00:00.000Z" then 1704067200000
  else if s = "2024-01-02T00:00:00.000Z" then 1704153600000
  else if s = "2024-01-03T00:00:00.000Z" then 1704240000000
  else 0

def relTiedA : AggregatedRelease :=
  { id := "src-1:commit:aa", sourceId := "src-1", sourceName := "Demo", provider := .github,
    repository := "acme/tool", kind := .commit, tagName := "aa", name := "A",
    body := "", bodyExcerpt := "", htmlUrl := "https://example.com/a", prerelease := false,
    draft := false, publishedAt := "1970-01-01T00:00:00.000Z" }

def relTiedB : AggregatedRelease :=
  { id := "src-2:commit:bb", sourceId := "src-2", sourceName := "Lab", provider := .gitlab,
    repository := "acme/lib", kind := .commit, tagName := "bb", name := "B",
    body := "", bodyExcerpt := "", htmlUrl := "https://example.com/b", prerelease := false,
    draft := false, publishedAt := "1970-01-01T00:00:00.000Z" }

/-- Two sources each returning one record whose `publishedAt` is the Unix
epoch default (as every commit without an author date is stamped). -/
def envTied : OrchEnv :=
  { now := 1000, nowIso := "2024-01-03T00:00:00.000Z", parseDate := demoParseDate,
    snapshot := fun _ => none,
    sources := fun p => if p = "page-1" then [srcGitHubDemo, srcGitLabDemo] else [],
    fetchResult := fun s => if s.id = "src-1" then ⟨[relTiedA], none⟩ else ⟨[relTiedB], none⟩ }

/-- C1 (counterexample): an aggregation run in which two sources return
records with the identical `publishedAt` keeps both records, so the
returned list is NOT strictly descending by `publishedAt`. -/
theorem c1_releases_weakly_sorted_counterexample :
    ((getUnifiedChangelog envTied (fun _ => none) false "page-1").payload.releases.map
      AggregatedRelease.publishedAt) =
        ["1970-01-01T00:00:00.000Z", "1970-01-01T00:00:00.000Z"] ∧
    strictlySortedDescBy envTied.parseDate
      (getUnifiedChangelog envTied (fun _ => none) false "page-1").payload.releases = false := by
  constructor
  · decide
  · decide

theorem c1_releases_weakly_sorted_witness :
    weaklySortedDescBy envTied.parseDate
      (getUnifiedChangelog envTied (fun _ => none) false "page-1").payload.releases = true :=
  c1_releases_weakly_sorted envTied (fun _ => none) false "page-1" (by decide) (by decide)
    (fun _ h => Option.noConfusion h)

/-! ## Claim C2 -/

/-- C2: when a run reaching the fetch phase produces zero releases and at
least one error while a persisted snapshot with a nonempty releases list
exists, the returned payload carries the snapshot's releases and the new
errors, that combined payload is written to the in-memory cache, and the
persisted snapshot is not overwritten (no snapshot write occurs). -/
theorem c2_stale_while_error (env : OrchEnv) (cache : CacheMap) (force : Bool)
    (pageId : String) (snap : UnifiedChangelog)
    (hcl : cacheLookup env cache force pageId = none)
    (hsp : snapshotPromotion env force pageId = none)
    (hsnap : env.snapshot pageId = some snap)
    (hrel : mergedReleases env (env.sources pageId) = [])
    (herr : buildSourceErrors (env.sources pageId) env.fetchResult ≠ [])
    (hsr : snap.releases ≠ []) :
    (getUnifiedChangelog env cache force pageId).payload.releases = snap.releases ∧
    (getUnifiedChangelog env cache force pageId).payload.errors =
      buildSourceErrors (env.sources pageId) env.fetchResult ∧
    (getUnifiedChangelog env cache force pageId).effects.snapshotWrite = none ∧
    (getUnifiedChangelog env cache force pageId).effects.cacheWrite =
      some ⟨env.now + CACHE_WINDOW_MS, (getUnifiedChangelog env cache force pageId).payload⟩ ∧
    (getUnifiedChangelog env cache force pageId).cache pageId =
      some ⟨env.now + CACHE_WINDOW_MS, (getUnifiedChangelog env cache force pageId).payload⟩ := by
  have hout : getUnifiedChangelog env cache force pageId =
      ⟨{ snap with errors := buildSourceErrors (env.sources pageId) env.fetchResult },
        cacheSet cache pageId ⟨env.now + CACHE_WINDOW_MS,
          { snap with errors := buildSourceErrors (env.sources pageId) env.fetchResult }⟩,
        ⟨true, (env.sources pageId).map RepoSourceWithToken.id, none,
          some ⟨env.now + CACHE_WINDOW_MS,
            { snap with errors := buildSourceErrors (env.sources pageId) env.fetchResult }⟩⟩⟩ := by
    simp only [getUnifiedChangelog, hcl, hsp, hsnap]
    rw [if_pos ⟨hrel, herr, hsr⟩]
  rw [hout]
  exact ⟨rfl, rfl, rfl, rfl, by simp [cacheSet]⟩

def snapDemo : UnifiedChangelog := ⟨"2024-01-01T00:00:00.000Z", [relTiedA], []⟩

/-- A run whose only source fails while a stale nonempty snapshot exists. -/
def envStale : OrchEnv :=
  { now := 1704067381000, nowIso := "2024-01-03T00:00:00.000Z", parseDate := demoParseDate,
    snapshot := fun p => if p = "page-1" then some snapDemo else none,
    sources := fun p => if p = "page-1" then [srcGitHubDemo] else [],
    fetchResult := fun _ => ⟨[], some "Github API 500: boom"⟩ }

theorem c2_stale_while_error_witness :
    (getUnifiedChangelog envStale (fun _ => none) false "page-1").payload.releases =
      snapDemo.releases ∧
    (getUnifiedChangelog envStale (fun _ => none) false "page-1").payload.errors =
      buildSourceErrors (envStale.sources "page-1") envStale.fetchResult ∧
    (getUnifiedChangelog envStale (fun _ => none) false "page-1").effects.snapshotWrite = none := by
  have h := c2_stale_while_error envStale (fun _ => none) false "page-1" snapDemo
    (by decide) (by decide) (by decide) (by decide) (by decide) (by decide)
  exact ⟨h.1, h.2.1, h.2.2.1⟩

/-! ## Claim C3 -/

/-- C3: per-source failures never escape the orchestrator (every failure is
already a `FetchResult` value, and the run is a total function); each
failing source contributes exactly one error entry — every failing source's
entry is present, and the number of entries equals the number of failing
sources — while every release any source returned is still in the returned
payload (in the stale-while-error branch the merged list is empty, so no
source's release is dropped there either). -/
theorem c3_per_source_error_isolation (env : OrchEnv) (cache : CacheMap) (force : Bool)
    (pageId : String)
    (hcl : cacheLookup env cache force pageId = none)
    (hsp : snapshotPromotion env force pageId = none) :
    (∀ source ∈ env.sources pageId, ∀ m, (env.fetchResult source).error = some m →
      (⟨source.id, source.displayName, source.owner ++ "/" ++ source.repo, m⟩ : SourceFetchError) ∈
        (getUnifiedChangelog env cache force pageId).payload.errors) ∧
    (getUnifiedChangelog env cache force pageId).payload.errors.length =
      ((env.sources pageId).filter fun s => ((env.fetchResult s).error).isSome).length ∧
    (∀ source ∈ env.sources pageId, ∀ r ∈ (env.fetchResult source).releases,
      r ∈ (getUnifiedChangelog env cache force pageId).payload.releases) := by
  have herr := getUnifiedChangelog_fetch_errors env cache force pageId hcl hsp
  refine ⟨?_, ?_, ?_⟩
  · intro source hmem m hm
    rw [herr]
    exact List.mem_filterMap.mpr ⟨source, hmem, by rw [hm]; rfl⟩
  · rw [herr]
    exact buildSourceErrors_length _ _
  · intro source hmem r hr
    rcases getUnifiedChangelog_fetch_releases env cache force pageId hcl hsp with
      h | ⟨hmerged, _, _, _⟩
    · rw [h]
      simp only [mergedReleases]
      rw [mem_sortReleasesDesc]
      exact List.mem_flatten.mpr ⟨(env.fetchResult source).releases,
        List.mem_map_of_mem _ hmem, hr⟩
    · exfalso
      have hflat : ((env.sources pageId).map fun s => (env.fetchResult s).releases).flatten = [] :=
        (sortReleasesDesc_eq_nil_iff env.parseDate _).mp hmerged
      have hnil : (env.fetchResult source).releases = [] :=
        List.flatten_eq_nil_iff.mp hflat _ (List.mem_map_of_mem _ hmem)
      rw [hnil] at hr
      simp at hr

/-- One failing and one succeeding source for the C3 witness. -/
def envMixed : OrchEnv :=
  { now := 0, nowIso := "2024-01-03T00:00:00.000Z", parseDate := demoParseDate,
    snapshot := fun _ => none,
    sources := fun p => if p = "page-1" then [srcGitHubDemo, srcGitLabDemo] else [],
    fetchResult := fun s =>
      if s.id = "src-1" then ⟨[], some "Network error: boom"⟩ else ⟨[relTiedB], none⟩ }

theorem c3_per_source_error_isolation_witness :
    (⟨"src-1", "Demo", "acme/tool", "Network error: boom"⟩ : SourceFetchError) ∈
      (getUnifiedChangelog envMixed (fun _ => none) false "page-1").payload.errors ∧
    relTiedB ∈ (getUnifiedChangelog envMixed (fun _ => none) false "page-1").payload.releases ∧
    (getUnifiedChangelog envMixed (fun _ => none) false "page-1").payload.errors.length =
      ((envMixed.sources "page-1").filter fun s =>
        ((envMixed.fetchResult s).error).isSome).length := by
  have h := c3_per_source_error_isolation envMixed (fun _ => none) false "page-1"
    (by decide) (by decide)
  exact ⟨h.1 srcGitHubDemo (by decide) "Network error: boom" (by decide),
    h.2.2 srcGitLabDemo (by decide) relTiedB (by decide), h.2.1⟩

/-! ## Claim C4 -/

/-- C4: a non-forced call finding an unexpired in-memory entry returns that
entry's payload unchanged, leaves the cache untouched, and performs no
snapshot read, no fetch, and no write of any kind. -/
theorem c4_cache_hit_frame (env : OrchEnv) (cache : CacheMap) (pageId : String)
    (entry : CacheEntry)
    (hc : cache pageId = some entry)
    (hfresh : env.now < entry.validUntil) :
    (getUnifiedChangelog env cache false pageId).payload = entry.payload ∧
    (getUnifiedChangelog env cache false pageId).cache = cache ∧
    (getUnifiedChangelog env cache false pageId).effects = noEffects := by
  have hcl : cacheLookup env cache false pageId = some entry := by
    simp [cacheLookup, hc, hfresh]
  simp [getUnifiedChangelog, hcl]

def cachedPayloadDemo : UnifiedChangelog := ⟨"2024-01-03T00:00:00.000Z", [relTiedA], []⟩

def envWarm : OrchEnv :=
  { now := 1704240005000, nowIso := "2024-01-03T00:00:00.000Z", parseDate := demoParseDate,
    snapshot := fun _ => none, sources := fun _ => [], fetchResult := fun _ => ⟨[], none⟩ }

def cacheWarm : CacheMap :=
  fun k => if k = "page-1" then some ⟨1704240010000, cachedPayloadDemo⟩ else none

theorem c4_cache_hit_frame_witness :
    (getUnifiedChangelog envWarm cacheWarm false "page-1").payload = cachedPayloadDemo ∧
    (getUnifiedChangelog envWarm cacheWarm false "page-1").effects = noEffects := by
  have h := c4_cache_hit_frame envWarm cacheWarm "page-1" ⟨1704240010000, cachedPayloadDemo⟩
    (by decide) (by decide)
  exact ⟨h.1, h.2.2⟩

/-! ## Claim C10 -/

/-- C10: promoting a persisted snapshot of age `a ∈ [0, 3 min)` installs a
cache entry that expires a full 3 minutes after the promotion time (not
after the snapshot's `fetchedAt`), so any later non-forced call whose clock
reading is below `promotion time + 3 min` — even one at which the
snapshot's own age already exceeds 3 minutes — still returns the same
snapshot payload from the cache. -/
theorem c10_promotion_extends_lifetime (env : OrchEnv) (cache : CacheMap) (pageId : String)
    (snap : UnifiedChangelog)
    (hcl : cacheLookup env cache false pageId = none)
    (hsnap : env.snapshot pageId = some snap)
    (h0 : 0 ≤ env.now - env.parseDate snap.fetchedAt)
    (h1 : env.now - env.parseDate snap.fetchedAt < CACHE_WINDOW_MS) :
    (getUnifiedChangelog env cache false pageId).payload = snap ∧
    (getUnifiedChangelog env cache false pageId).cache pageId =
      some ⟨env.now + CACHE_WINDOW_MS, snap⟩ ∧
    (∀ env2 : OrchEnv, env2.now < env.now + CACHE_WINDOW_MS →
      (getUnifiedChangelog env2 (getUnifiedChangelog env cache false pageId).cache
          false pageId).payload = snap) := by
  have hsp : snapshotPromotion env false pageId = some snap := by
    have hage : 0 ≤ env.now - env.parseDate snap.fetchedAt ∧
        env.now - env.parseDate snap.fetchedAt < CACHE_WINDOW_MS := ⟨h0, h1⟩
    simp [snapshotPromotion, hsnap, hage]
  have hout : getUnifiedChangelog env cache false pageId =
      ⟨snap, cacheSet cache pageId ⟨env.now + CACHE_WINDOW_MS, snap⟩,
        ⟨true, [], none, some ⟨env.now + CACHE_WINDOW_MS, snap⟩⟩⟩ := by
    simp only [getUnifiedChangelog, hcl, hsp]
  rw [hout]
  refine ⟨rfl, by simp [cacheSet], ?_⟩
  intro env2 h2
  have hcl2 : cacheLookup env2 (cacheSet cache pageId ⟨env.now + CACHE_WINDOW_MS, snap⟩)
      false pageId = some ⟨env.now + CACHE_WINDOW_MS, snap⟩ := by
    simp [cacheLookup, cacheSet, h2]
  simp [getUnifiedChangelog, hcl2]

/-- A snapshot that is 2 minutes old at promotion time. -/
def envPromote : OrchEnv :=
  { now := 1704067320000, nowIso := "2024-01-03T00:00:00.000Z", parseDate := demoParseDate,
    snapshot := fun p => if p = "page-1" then some snapDemo else none,
    sources := fun p => if p = "page-1" then [srcGitHubDemo] else [],
    fetchResult := fun _ => ⟨[], some "unreached"⟩ }

/-- A clock 170 seconds after the promotion, at which the snapshot itself
is 290 seconds old — well past the 3-minute window measured from
`fetchedAt` — yet still inside the promoted entry's lifetime. -/
def envLater : OrchEnv :=
  { now := 1704067490000, nowIso := "2024-01-03T00:05:00.000Z", parseDate := demoParseDate,
    snapshot := fun _ => none, sources := fun _ => [], fetchResult := fun _ => ⟨[], none⟩ }

theorem c10_promotion_extends_lifetime_witness :
    (getUnifiedChangelog envPromote (fun _ => none) false "page-1").payload = snapDemo ∧
    CACHE_WINDOW_MS ≤ envLater.now - demoParseDate snapDemo.fetchedAt ∧
    (getUnifiedChangelog envLater
      (getUnifiedChangelog envPromote (fun _ => none) false "page-1").cache
      false "page-1").payload = snapDemo := by
  have h := c10_promotion_extends_lifetime envPromote (fun _ => none) "page-1" snapDemo
    (by decide) (by decide) (by decide) (by decide)
  exact ⟨h.1, by decide, h.2.2 envLater (by decide)⟩
